import Mathlib

/-!
Formal model of the covert repository: a browser cryptocurrency price
converter consisting of two independent scripts.

Source file 1 (unnamed, the CryptoConverter class): an in-memory price
cache with a 60 second expiration window, a price fetcher, input
validation and a conversion flow driven by a two-state UI controller
(Idle / Converting).

Source file 2 (assets/transfer.js): a single-currency calculator whose
extractUsdPrice function sniffs several JSON response shapes.

Machine numbers are modelled as exact rationals: every numeric value the
claims mention (prices 2.0 and 4.0, amount 10, the 60000 ms window,
second counts) is exactly representable in IEEE binary64, and the
arithmetic the code performs on them is exact, so the rational semantics
agrees with the JavaScript semantics on everything stated here.
Timestamps come from Date.now() and are modelled as natural numbers
(milliseconds); the code only ever reads them with the current time at
least the stored time.
-/

namespace Covert

/-- JavaScript values, as far as the two scripts inspect them: the
undefined and null values, numbers (exact rationals, see the file
comment), strings, booleans and objects (association lists of fields). -/
inductive Js where
  | undefined : Js
  | null : Js
  | num : ℚ → Js
  | str : String → Js
  | bool : Bool → Js
  | obj : List (String × Js) → Js

/-- Field lookup in an object field list, first binding wins. -/
def jsFields : List (String × Js) → String → Option Js
  | [], _ => none
  | (k, v) :: rest, key => if k = key then some v else jsFields rest key

/-- Property access `x.f`: on an object, the field value or undefined
when the field is missing; on any non-object primitive the scripts read
properties of, undefined.  The scripts only dereference values they have
already checked to be truthy, so the null and undefined rows are never
reached from the modelled code. -/
def Js.getField : Js → String → Js
  | .obj fields, key => (jsFields fields key).getD .undefined
  | _, _ => .undefined

/-- JavaScript truthiness of a value (NaN does not arise: JSON bodies
cannot encode it and numbers are exact rationals here). -/
def Js.truthy : Js → Bool
  | .undefined => false
  | .null => false
  | .num q => q != 0
  | .str s => s != ""
  | .bool b => b
  | .obj _ => true

/-- The test `typeof x === "number"` together with the numeric value. -/
def Js.asNumber : Js → Option ℚ
  | .num q => some q
  | _ => none

/-- Price cache entry, as stored by setCachedPrice: the cached value and
the Date.now() timestamp at store time.  The price field is a JavaScript
value, not a number, because fetchPrice stores whatever data.usd_price
evaluates to (see fetchPrice below). -/
structure CacheEntry where
  price : Js
  timestamp : ℕ

/-- The priceCache Map, modelled as an association list with the same
lookup semantics (keys unique by construction of set and delete). -/
abbrev Cache := List (String × CacheEntry)

/-- Map.delete: remove the binding of a key. -/
def Cache.delete : Cache → String → Cache
  | [], _ => []
  | (k, v) :: rest, key =>
      if k = key then Cache.delete rest key else (k, v) :: Cache.delete rest key

/-- Map.set: bind a key to a value, replacing any prior binding. -/
def Cache.set (c : Cache) (key : String) (v : CacheEntry) : Cache :=
  (key, v) :: Cache.delete c key

/-- The cacheExpiration field: one minute in milliseconds. -/
def cacheExpiration : ℕ := 60 * 1000

/-- CryptoConverter.getCachedPrice, as a state transformer on the cache:
look the coin up; if absent return null; if the entry is older than the
expiration window, delete it and return null; otherwise return its
price. -/
def getCachedPrice (c : Cache) (coinId : String) (now : ℕ) : Option Js × Cache :=
  match List.lookup coinId c with
  | none => (none, c)
  | some cached =>
      if cacheExpiration < now - cached.timestamp then
        (none, Cache.delete c coinId)
      else
        (some cached.price, c)

/-- CryptoConverter.setCachedPrice: store a price with the current
timestamp. -/
def setCachedPrice (c : Cache) (coinId : String) (price : Js) (now : ℕ) : Cache :=
  Cache.set c coinId ⟨price, now⟩

/-- CryptoConverter.getCacheStatus, as a state transformer on the cache.
The method builds a display string; what it carries is the remaining
seconds value, so the model returns some remainingSeconds when the
method returns the cached-for indicator and none when it returns the
empty string.  ageInSeconds is Math.floor of a nonnegative real
division, which is natural-number division here. -/
def getCacheStatus (c : Cache) (coinId : String) (now : ℕ) : Option ℤ × Cache :=
  match List.lookup coinId c with
  | none => (none, c)
  | some cached =>
      let ageInSeconds : ℤ := ((now - cached.timestamp) / 1000 : ℕ)
      let remainingSeconds : ℤ := 60 - ageInSeconds
      if 0 < remainingSeconds then (some remainingSeconds, c) else (none, c)

theorem lookup_delete_self (c : Cache) (key : String) :
    List.lookup key (Cache.delete c key) = none := by
  induction c with
  | nil => rfl
  | cons hd tl ih =>
      obtain ⟨k, v⟩ := hd
      by_cases h : k = key
      · simp [Cache.delete, h, ih]
      · simp [Cache.delete, h, List.lookup, beq_false_of_ne (Ne.symm h), ih]

theorem lookup_delete_ne (c : Cache) (key k : String) (h : k ≠ key) :
    List.lookup k (Cache.delete c key) = List.lookup k c := by
  induction c with
  | nil => rfl
  | cons hd tl ih =>
      obtain ⟨k', v⟩ := hd
      by_cases h' : k' = key
      · subst h'
        simp [Cache.delete, List.lookup, beq_false_of_ne h, ih]
      · by_cases h'' : k' = k
        · subst h''
          simp [Cache.delete, h', List.lookup]
        · simp [Cache.delete, h', List.lookup, beq_false_of_ne (Ne.symm h''), ih]

/-- extractUsdPrice from assets/transfer.js, line for line: a falsy
argument yields null; a numeric usd_price field wins; otherwise, when
the data field is truthy, a numeric data.usd_price wins, then a numeric
data.price.usd_price behind a truthy data.price, then the data field
itself when it is a number; otherwise null.  The model returns an
Option in place of number-or-null. -/
def extractUsdPrice (data : Js) : Option ℚ :=
  if data.truthy = false then none
  else
    match (data.getField "usd_price").asNumber with
    | some p => some p
    | none =>
        let d := data.getField "data"
        if d.truthy then
          match (d.getField "usd_price").asNumber with
          | some p => some p
          | none =>
              match
                (if (d.getField "price").truthy then
                  ((d.getField "price").getField "usd_price").asNumber
                else none) with
              | some p => some p
              | none => d.asNumber
        else none

/-- CryptoConverter.fetchPrice from the unnamed file, as a cache state
transformer.  The network is the external collaborator: the response
argument is Except.error for a rejected fetch or a non-2xx status (the
method re-throws those) and Except.ok with the parsed JSON body
otherwise.  On a cache hit the cached value is returned (the hit check
is getCachedPrice, which may first evict a stale entry).  On a body,
the method performs no shape checking at all: it stores and returns
data.usd_price, whatever that property evaluates to, without error. -/
def fetchPrice (c : Cache) (coinId : String) (now : ℕ)
    (response : Except String Js) : Except String Js × Cache :=
  match getCachedPrice c coinId now with
  | (some cachedPrice, c') => (.ok cachedPrice, c')
  | (none, c') =>
      match response with
      | .error e => (.error e, c')
      | .ok data =>
          (.ok (data.getField "usd_price"),
           setCachedPrice c' coinId (data.getField "usd_price") now)

/-- Result of parseFloat as the validation code sees it: NaN, one of the
two infinities, or a finite number. -/
inductive JsNum where
  | nan : JsNum
  | inf : JsNum
  | neginf : JsNum
  | fin : ℚ → JsNum
deriving DecidableEq

/-- The isNaN test on a parseFloat result. -/
def JsNum.isNaN : JsNum → Bool
  | .nan => true
  | _ => false

/-- The JavaScript comparison amount <= 0 (false on NaN). -/
def JsNum.le0 : JsNum → Bool
  | .nan => false
  | .inf => false
  | .neginf => true
  | .fin q => decide (q ≤ 0)

/-- JavaScript multiplication of a parseFloat result by a finite number
(prices parsed from JSON are finite). -/
def JsNum.mulQ : JsNum → ℚ → JsNum
  | .nan, _ => .nan
  | .inf, p => if 0 < p then .inf else if p < 0 then .neginf else .nan
  | .neginf, p => if 0 < p then .neginf else if p < 0 then .inf else .nan
  | .fin a, p => .fin (a * p)

/-- JavaScript division of a parseFloat result by a finite number:
division by zero gives a signed infinity (or NaN for zero over zero). -/
def JsNum.divQ : JsNum → ℚ → JsNum
  | .nan, _ => .nan
  | .inf, p => if 0 ≤ p then .inf else .neginf
  | .neginf, p => if 0 ≤ p then .neginf else .inf
  | .fin a, p =>
      if p = 0 then (if 0 < a then .inf else if a < 0 then .neginf else .nan)
      else .fin (a / p)

/-- The cryptoNames table from the constructor. -/
def cryptoNames : List (String × String) :=
  [("pepepow", "PEPEW"), ("ravencoin", "RVN"), ("bitcoin", "BTC"),
   ("ethereum", "ETH"), ("dogecoin", "DOGE"), ("litecoin", "LTC"),
   ("cardano", "ADA"), ("polkadot", "DOT"), ("digibyte", "DGB")]

/-- CryptoConverter.getCryptoDisplayName: the table entry, or the id
uppercased. -/
def getCryptoDisplayName (coinId : String) : String :=
  (List.lookup coinId cryptoNames).getD coinId.toUpper

/-- CryptoConverter.validateInputs, as a function of the parsed amount
and the two selected currency ids.  The source returns an object with
an isValid flag and either an error string or the validated triple;
Except encodes the same two outcomes. -/
def validateInputs (amount : JsNum) (fromCrypto toCrypto : String) :
    Except String (JsNum × String × String) :=
  if fromCrypto = toCrypto then
    .error "Please select different cryptocurrencies for conversion."
  else if amount.isNaN || amount.le0 then
    .error ("Please enter a valid " ++ getCryptoDisplayName fromCrypto ++ " amount.")
  else
    .ok (amount, fromCrypto, toCrypto)

/-- Content of the result or error display region.  A conversionResult
stands for the interpolated success string, which carries the amount,
the converted amount, the intermediate USD amount and the two display
names at fixed decimal precisions; decimal string formatting itself is
not modelled, the constructor keeps the exact values the source
interpolates. -/
inductive Msg where
  | empty : Msg
  | text : String → Msg
  | conversionResult : JsNum → JsNum → JsNum → String → String → Msg
deriving DecidableEq

/-- The DOM state the controller manipulates: the isConverting flag, the
convert button and its two label spans, and the result and error
regions (content plus hidden class). -/
structure UIState where
  isConverting : Bool
  convertBtnDisabled : Bool
  convertTextHidden : Bool
  convertLoadingHidden : Bool
  result : Msg
  resultHidden : Bool
  error : Msg
  errorHidden : Bool
deriving DecidableEq

/-- CryptoConverter.setLoadingState. -/
def setLoadingState (s : UIState) (isLoading : Bool) : UIState :=
  { s with
    isConverting := isLoading
    convertBtnDisabled := isLoading
    convertTextHidden := isLoading
    convertLoadingHidden := !isLoading }

/-- CryptoConverter.clearMessages. -/
def clearMessages (s : UIState) : UIState :=
  { s with result := .empty, error := .empty, resultHidden := true, errorHidden := true }

/-- CryptoConverter.showError. -/
def showError (s : UIState) (m : Msg) : UIState :=
  { s with error := m, errorHidden := false }

/-- CryptoConverter.showResult. -/
def showResult (s : UIState) (m : Msg) : UIState :=
  { s with result := m, resultHidden := false }

/-- The generic fetch failure message shown by the catch block of
convert. -/
def genericFetchError : String := "Error fetching prices. Please try again later."

/-- Promise.all over the two price fetches: the joined promise rejects
with the reason of the fetch that rejects (the from fetch listed first),
and fulfills with the pair only when both fulfill. -/
def promiseAll2 (a b : Except String ℚ) : Except String (ℚ × ℚ) :=
  match a with
  | .error e => .error e
  | .ok x =>
      match b with
      | .error e => .error e
      | .ok y => .ok (x, y)

/-- CryptoConverter.convert.  Inputs are the current UI state, the two
selected ids, the parsed amount, and the settled outcomes of the two
price fetches (the external collaborator); the output is the new UI
state together with the list of fetchPrice invocations the run issued.
The body mirrors the source: a re-entrant call returns at once; then
clearMessages and setLoadingState(true); a validation failure shows its
error and issues no fetch; a rejected Promise.all reaches the catch
block which shows the generic message; on success the amounts are
computed and shown; the finally clause applies setLoadingState(false)
on every one of those paths. -/
def convert (s : UIState) (fromCrypto toCrypto : String) (amount : JsNum)
    (fromFetch toFetch : Except String ℚ) : UIState × List String :=
  if s.isConverting then (s, [])
  else
    let s1 := setLoadingState (clearMessages s) true
    match validateInputs amount fromCrypto toCrypto with
    | .error msg => (setLoadingState (showError s1 (.text msg)) false, [])
    | .ok (a, fromC, toC) =>
        match promiseAll2 fromFetch toFetch with
        | .error _ =>
            (setLoadingState (showError s1 (.text genericFetchError)) false,
             [fromC, toC])
        | .ok (fromPrice, toPrice) =>
            let usdAmount := a.mulQ fromPrice
            let convertedAmount := usdAmount.divQ toPrice
            (setLoadingState
              (showResult s1
                (.conversionResult a usdAmount convertedAmount
                  (getCryptoDisplayName fromC) (getCryptoDisplayName toC))) false,
             [fromC, toC])

/-- An Idle UI state as produced at startup: nothing converting, button
enabled, loading spinner hidden, both message regions cleared. -/
def idleState : UIState :=
  ⟨false, false, false, true, .empty, true, .empty, true⟩

theorem getCacheStatus_fst (c : Cache) (coinId : String) (now : ℕ) (e : CacheEntry)
    (he : List.lookup coinId c = some e) :
    (getCacheStatus c coinId now).1 =
      if (0 : ℤ) < 60 - (((now - e.timestamp) / 1000 : ℕ) : ℤ)
        then some (60 - (((now - e.timestamp) / 1000 : ℕ) : ℤ)) else none := by
  simp only [getCacheStatus, he]
  by_cases h : (0 : ℤ) < 60 - (((now - e.timestamp) / 1000 : ℕ) : ℤ)
  · rw [if_pos h, if_pos h]
  · rw [if_neg h, if_neg h]

theorem getCacheStatus_snd (c : Cache) (coinId : String) (now : ℕ) (e : CacheEntry)
    (he : List.lookup coinId c = some e) :
    (getCacheStatus c coinId now).2 = c := by
  simp only [getCacheStatus, he]
  by_cases h : (0 : ℤ) < 60 - (((now - e.timestamp) / 1000 : ℕ) : ℤ)
  · rw [if_pos h]
  · rw [if_neg h]

/-- C1: for every currency identifier, getCachedPrice returns the stored
price when an entry exists whose age now - fetchedAt is at most 60000 ms
and leaves the cache unchanged; when no entry exists it returns absent
and leaves the cache unchanged; and when the entry is older than the
window it returns absent and removes exactly that entry from the
cache. -/
theorem getCachedPrice_spec (c : Cache) (coinId : String) (now : ℕ) :
    (List.lookup coinId c = none → getCachedPrice c coinId now = (none, c)) ∧
    (∀ e, List.lookup coinId c = some e →
      (now - e.timestamp ≤ cacheExpiration →
        getCachedPrice c coinId now = (some e.price, c)) ∧
      (cacheExpiration < now - e.timestamp →
        (getCachedPrice c coinId now).1 = none ∧
        List.lookup coinId (getCachedPrice c coinId now).2 = none ∧
        ∀ k, k ≠ coinId →
          List.lookup k (getCachedPrice c coinId now).2 = List.lookup k c)) := by
  constructor
  · intro h
    simp [getCachedPrice, h]
  · intro e he
    constructor
    · intro hfresh
      simp [getCachedPrice, he, Nat.not_lt.mpr hfresh]
    · intro hstale
      have hg : getCachedPrice c coinId now = (none, Cache.delete c coinId) := by
        simp only [getCachedPrice, he, if_pos hstale]
      rw [hg]
      exact ⟨rfl, lookup_delete_self c coinId,
        fun k hk => lookup_delete_ne c coinId k hk⟩

/-- Witness for C1: a single bitcoin entry fetched at time 0 read at
70000 ms is stale, so the read returns absent and the entry is gone. -/
theorem getCachedPrice_spec_witness :
    (getCachedPrice [("bitcoin", ⟨Js.num 100, 0⟩)] "bitcoin" 70000).1 = none ∧
    List.lookup "bitcoin"
      (getCachedPrice [("bitcoin", ⟨Js.num 100, 0⟩)] "bitcoin" 70000).2 = none := by
  have h :=
    ((getCachedPrice_spec [("bitcoin", ⟨Js.num 100, 0⟩)] "bitcoin" 70000).2
      ⟨Js.num 100, 0⟩ rfl).2 (by decide)
  exact ⟨h.1, h.2.1⟩

/-- C2 is a code bug, witnessed here at a concrete failing input: the
JSON body with usd_price nested under data is one of the accepted
shapes, and the transfer.js extraction indeed finds the price 5 in it;
but fetchPrice of the CryptoConverter class, handed that body with an
empty cache, does not try the shapes and does not fail: it fulfills
with the undefined value and stores a cache entry whose price is
undefined. -/
theorem fetchPrice_shape_bug :
    extractUsdPrice (Js.obj [("data", Js.obj [("usd_price", Js.num 5)])]) = some 5 ∧
    (fetchPrice [] "bitcoin" 0
      (Except.ok (Js.obj [("data", Js.obj [("usd_price", Js.num 5)])]))).1 =
      Except.ok Js.undefined ∧
    List.lookup "bitcoin"
      (fetchPrice [] "bitcoin" 0
        (Except.ok (Js.obj [("data", Js.obj [("usd_price", Js.num 5)])]))).2 =
      some ⟨Js.undefined, 0⟩ :=
  ⟨rfl, rfl, rfl⟩

/-- Counterexample to C6 as stated: an entry fetched at 0 and read at
exactly 60000 ms is still live for the cache read, which returns its
price; the claim says the display value then equals the formula clamped
to non-negative, which is 0 here, but getCacheStatus displays absent
instead. -/
theorem getCacheStatus_clamp_cex :
    (getCachedPrice [("bitcoin", ⟨Js.num 100, 0⟩)] "bitcoin" 60000).1 =
      some (Js.num 100) ∧
    (getCacheStatus [("bitcoin", ⟨Js.num 100, 0⟩)] "bitcoin" 60000).1 ≠
      some (max (60 - (((60000 - 0) / 1000 : ℕ) : ℤ)) 0) :=
  ⟨rfl, by decide⟩

/-- C6 amended: when there is no entry the display is absent; for an
entry, any displayed value equals 60 - floor of the age in seconds and
is strictly positive (so never negative and the clamp to zero never
shows: a non-positive remainder displays as absent, which at an age of
exactly 60 s happens while the cache read still returns the entry);
the display is absent exactly when the age in whole seconds has reached
60; and for a fixed entry the displayed value decreases monotonically
as the read time grows, absence being absorbing. -/
theorem getCacheStatus_ttl_display (c : Cache) (coinId : String) (now now1 now2 : ℕ) :
    (List.lookup coinId c = none → (getCacheStatus c coinId now).1 = none) ∧
    (∀ e, List.lookup coinId c = some e →
      (∀ v, (getCacheStatus c coinId now).1 = some v →
        v = 60 - (((now - e.timestamp) / 1000 : ℕ) : ℤ) ∧ 0 < v) ∧
      ((getCacheStatus c coinId now).1 = none ↔
        (60 : ℤ) ≤ (((now - e.timestamp) / 1000 : ℕ) : ℤ)) ∧
      (now1 ≤ now2 → ∀ v1 v2, (getCacheStatus c coinId now1).1 = some v1 →
        (getCacheStatus c coinId now2).1 = some v2 → v2 ≤ v1) ∧
      (now1 ≤ now2 → (getCacheStatus c coinId now1).1 = none →
        (getCacheStatus c coinId now2).1 = none)) := by
  constructor
  · intro h
    simp [getCacheStatus, h]
  · intro e he
    have ha12 : now1 ≤ now2 →
        (now1 - e.timestamp) / 1000 ≤ (now2 - e.timestamp) / 1000 :=
      fun h => Nat.div_le_div_right (Nat.sub_le_sub_right h _)
    refine ⟨?_, ?_, ?_, ?_⟩
    · intro v hv
      rw [getCacheStatus_fst c coinId now e he] at hv
      by_cases h : (0 : ℤ) < 60 - (((now - e.timestamp) / 1000 : ℕ) : ℤ)
      · rw [if_pos h] at hv
        have hv' := Option.some.inj hv
        omega
      · rw [if_neg h] at hv
        exact Option.noConfusion hv
    · rw [getCacheStatus_fst c coinId now e he]
      by_cases h : (0 : ℤ) < 60 - (((now - e.timestamp) / 1000 : ℕ) : ℤ)
      · rw [if_pos h]
        exact ⟨fun hc => Option.noConfusion hc, fun hc => absurd h (by omega)⟩
      · rw [if_neg h]
        exact ⟨fun _ => by omega, fun _ => rfl⟩
    · intro h12 v1 v2 hv1 hv2
      rw [getCacheStatus_fst c coinId now1 e he] at hv1
      rw [getCacheStatus_fst c coinId now2 e he] at hv2
      have hd := ha12 h12
      by_cases h1 : (0 : ℤ) < 60 - (((now1 - e.timestamp) / 1000 : ℕ) : ℤ)
      · by_cases h2 : (0 : ℤ) < 60 - (((now2 - e.timestamp) / 1000 : ℕ) : ℤ)
        · rw [if_pos h1] at hv1
          rw [if_pos h2] at hv2
          have e1 := Option.some.inj hv1
          have e2 := Option.some.inj hv2
          omega
        · rw [if_neg h2] at hv2
          exact Option.noConfusion hv2
      · rw [if_neg h1] at hv1
        exact Option.noConfusion hv1
    · intro h12 hn1
      rw [getCacheStatus_fst c coinId now1 e he] at hn1
      rw [getCacheStatus_fst c coinId now2 e he]
      have hd := ha12 h12
      by_cases h1 : (0 : ℤ) < 60 - (((now1 - e.timestamp) / 1000 : ℕ) : ℤ)
      · rw [if_pos h1] at hn1
        exact Option.noConfusion hn1
      · rw [if_neg (show ¬ (0 : ℤ) < 60 - (((now2 - e.timestamp) / 1000 : ℕ) : ℤ) by omega)]

/-- Witness for C6: the bitcoin entry fetched at 0 displays 50 s
remaining when read at 10000 ms and 30 s when read at 30000 ms, and the
later value is at most the earlier. -/
theorem getCacheStatus_ttl_display_witness :
    (getCacheStatus [("bitcoin", ⟨Js.num 100, 0⟩)] "bitcoin" 10000).1 = some 50 ∧
    (getCacheStatus [("bitcoin", ⟨Js.num 100, 0⟩)] "bitcoin" 30000).1 = some 30 ∧
    (30 : ℤ) ≤ 50 := by
  refine ⟨by decide, by decide, ?_⟩
  exact ((getCacheStatus_ttl_display [("bitcoin", ⟨Js.num 100, 0⟩)] "bitcoin" 0
    10000 30000).2 ⟨Js.num 100, 0⟩ rfl).2.2.1 (by norm_num) 50 30 (by decide) (by decide)

/-- C10: reading the remaining TTL never modifies the cache: for an
entry whose age exceeds the 60 second window, getCacheStatus returns
the absent status and the cache afterwards is the very same map with
the entry still present, whereas getCachedPrice at the same state
evicts it. -/
theorem getCacheStatus_no_evict (c : Cache) (coinId : String) (now : ℕ) (e : CacheEntry)
    (he : List.lookup coinId c = some e) (hstale : cacheExpiration < now - e.timestamp) :
    (getCacheStatus c coinId now).1 = none ∧
    (getCacheStatus c coinId now).2 = c ∧
    List.lookup coinId (getCacheStatus c coinId now).2 = some e ∧
    (getCachedPrice c coinId now).1 = none ∧
    List.lookup coinId (getCachedPrice c coinId now).2 = none := by
  have hage : 60 ≤ (now - e.timestamp) / 1000 := by
    rw [Nat.le_div_iff_mul_le (by norm_num)]
    simp only [cacheExpiration] at hstale
    omega
  have hneg : ¬ (0 : ℤ) < 60 - (((now - e.timestamp) / 1000 : ℕ) : ℤ) := by
    omega
  have hsnd := getCacheStatus_snd c coinId now e he
  have hg : getCachedPrice c coinId now = (none, Cache.delete c coinId) := by
    simp only [getCachedPrice, he, if_pos hstale]
  refine ⟨?_, hsnd, ?_, ?_, ?_⟩
  · rw [getCacheStatus_fst c coinId now e he, if_neg hneg]
  · rw [hsnd]
    exact he
  · rw [hg]
  · rw [hg]
    exact lookup_delete_self c coinId

/-- Witness for C10: the bitcoin entry fetched at 0, read at 70000 ms:
the status is absent yet the entry is still in the map, while the cache
read has removed it. -/
theorem getCacheStatus_no_evict_witness :
    (getCacheStatus [("bitcoin", ⟨Js.num 100, 0⟩)] "bitcoin" 70000).1 = none ∧
    List.lookup "bitcoin"
      (getCacheStatus [("bitcoin", ⟨Js.num 100, 0⟩)] "bitcoin" 70000).2 =
      some ⟨Js.num 100, 0⟩ ∧
    List.lookup "bitcoin"
      (getCachedPrice [("bitcoin", ⟨Js.num 100, 0⟩)] "bitcoin" 70000).2 = none := by
  have h := getCacheStatus_no_evict [("bitcoin", ⟨Js.num 100, 0⟩)] "bitcoin" 70000
    ⟨Js.num 100, 0⟩ rfl (by decide)
  exact ⟨h.1, h.2.2.1, h.2.2.2.2⟩

/-- Counterexample to C9 as stated: in the body with data equal to the
number 0, the data field is itself a number and no usd_price field
matches first, yet extraction returns null rather than that number,
because the block guarding the fourth shape tests the truthiness of the
data field and 0 is falsy. -/
theorem extractUsdPrice_zero_data_cex :
    ((Js.obj [("data", Js.num 0)]).getField "data").asNumber = some 0 ∧
    extractUsdPrice (Js.obj [("data", Js.num 0)]) = none :=
  ⟨rfl, rfl⟩

/-- C9 amended: extractUsdPrice accepts a fourth response shape beyond
the three the spec lists: when the data field is itself a nonzero
(hence truthy) number and no usd_price field matched first, that number
is returned as the USD price. -/
theorem extractUsdPrice_data_number (data : Js) (q : ℚ)
    (htr : data.truthy = true)
    (hflat : (data.getField "usd_price").asNumber = none)
    (hdata : data.getField "data" = Js.num q) (hq : q ≠ 0) :
    extractUsdPrice data = some q := by
  simp only [extractUsdPrice, htr, hflat, hdata]
  simp [Js.truthy, Js.getField, Js.asNumber, hq]

/-- Witness for C9: a body whose data field is the number 7 extracts the
price 7. -/
theorem extractUsdPrice_data_number_witness :
    extractUsdPrice (Js.obj [("data", Js.num 7)]) = some 7 :=
  extractUsdPrice_data_number (Js.obj [("data", Js.num 7)]) 7 rfl rfl rfl (by norm_num)

/-- Counterexample to C3 as stated: an amount that parses to Infinity is
not a finite number strictly greater than zero, so the claim requires
validation to fail; but isNaN(Infinity) is false and Infinity <= 0 is
false, so validateInputs succeeds, and the conversion then proceeds to
issue both fetches. -/
theorem validateInputs_infinity_cex :
    validateInputs JsNum.inf "bitcoin" "ethereum" =
      Except.ok (JsNum.inf, "bitcoin", "ethereum") ∧
    (convert idleState "bitcoin" "ethereum" JsNum.inf
      (Except.ok 2) (Except.ok 4)).2 = ["bitcoin", "ethereum"] :=
  ⟨rfl, rfl⟩

/-- C3 amended: validation fails exactly when fromCrypto equals toCrypto
(same-currency error, checked first) or when the parsed amount is NaN
or compares less-or-equal to zero (invalid-amount error naming the
source currency; negative Infinity counts as non-positive, positive
Infinity passes); whenever validation fails, convert on an idle
controller issues no fetch and shows exactly that validation error. -/
theorem validateInputs_amended (amount : JsNum) (fromCrypto toCrypto : String) :
    (fromCrypto = toCrypto →
      validateInputs amount fromCrypto toCrypto =
        Except.error "Please select different cryptocurrencies for conversion.") ∧
    (fromCrypto ≠ toCrypto → (amount.isNaN = true ∨ amount.le0 = true) →
      validateInputs amount fromCrypto toCrypto =
        Except.error
          ("Please enter a valid " ++ getCryptoDisplayName fromCrypto ++ " amount.")) ∧
    (fromCrypto ≠ toCrypto → amount.isNaN = false → amount.le0 = false →
      validateInputs amount fromCrypto toCrypto = Except.ok (amount, fromCrypto, toCrypto)) ∧
    (∀ (s : UIState) (ff tf : Except String ℚ) (msg : String),
      s.isConverting = false →
      validateInputs amount fromCrypto toCrypto = Except.error msg →
      (convert s fromCrypto toCrypto amount ff tf).2 = [] ∧
      (convert s fromCrypto toCrypto amount ff tf).1.error = Msg.text msg ∧
      (convert s fromCrypto toCrypto amount ff tf).1.errorHidden = false ∧
      (convert s fromCrypto toCrypto amount ff tf).1.result = Msg.empty) := by
  refine ⟨?_, ?_, ?_, ?_⟩
  · intro h
    simp [validateInputs, h]
  · intro hne hbad
    rcases hbad with h | h <;> simp [validateInputs, hne, h]
  · intro hne hnan hle
    simp [validateInputs, hne, hnan, hle]
  · intro s ff tf msg hs hv
    simp [convert, hs, hv, setLoadingState, showError, clearMessages]

/-- Witness for C3: selecting the same currency twice fails with the
same-currency message. -/
theorem validateInputs_amended_witness :
    validateInputs (JsNum.fin 1) "bitcoin" "bitcoin" =
      Except.error "Please select different cryptocurrencies for conversion." :=
  (validateInputs_amended (JsNum.fin 1) "bitcoin" "bitcoin").1 rfl

/-- C4: with valid inputs, the two fetches are joined all-or-fail: the
joined promise rejects with the first error encountered (the rejection
of the from fetch, else that of the to fetch); if either fetch fails
the conversion shows the generic fetch error message and the result
region stays empty and hidden; only when both succeed is a result
rendered, with the error region empty and hidden. -/
theorem convert_all_or_fail (s : UIState) (fromCrypto toCrypto : String) (amount : JsNum)
    (fromFetch toFetch : Except String ℚ)
    (hs : s.isConverting = false) (hne : fromCrypto ≠ toCrypto)
    (hnan : amount.isNaN = false) (hle : amount.le0 = false) :
    (∀ e, fromFetch = Except.error e → promiseAll2 fromFetch toFetch = Except.error e) ∧
    (∀ e p, fromFetch = Except.ok p → toFetch = Except.error e →
      promiseAll2 fromFetch toFetch = Except.error e) ∧
    (((∃ e, fromFetch = Except.error e) ∨ (∃ e, toFetch = Except.error e)) →
      (convert s fromCrypto toCrypto amount fromFetch toFetch).1.error =
        Msg.text genericFetchError ∧
      (convert s fromCrypto toCrypto amount fromFetch toFetch).1.errorHidden = false ∧
      (convert s fromCrypto toCrypto amount fromFetch toFetch).1.result = Msg.empty ∧
      (convert s fromCrypto toCrypto amount fromFetch toFetch).1.resultHidden = true) ∧
    (∀ p1 p2, fromFetch = Except.ok p1 → toFetch = Except.ok p2 →
      (convert s fromCrypto toCrypto amount fromFetch toFetch).1.result =
        Msg.conversionResult amount (amount.mulQ p1) ((amount.mulQ p1).divQ p2)
          (getCryptoDisplayName fromCrypto) (getCryptoDisplayName toCrypto) ∧
      (convert s fromCrypto toCrypto amount fromFetch toFetch).1.resultHidden = false ∧
      (convert s fromCrypto toCrypto amount fromFetch toFetch).1.error = Msg.empty ∧
      (convert s fromCrypto toCrypto amount fromFetch toFetch).1.errorHidden = true) := by
  refine ⟨?_, ?_, ?_, ?_⟩
  · rintro e rfl
    rfl
  · rintro e p rfl rfl
    rfl
  · rintro (⟨e, rfl⟩ | ⟨e, he⟩)
    · simp [convert, hs, validateInputs, hne, hnan, hle, promiseAll2,
        setLoadingState, showError, clearMessages]
    · subst he
      rcases fromFetch with e' | p'
      · simp [convert, hs, validateInputs, hne, hnan, hle, promiseAll2,
          setLoadingState, showError, clearMessages]
      · simp [convert, hs, validateInputs, hne, hnan, hle, promiseAll2,
          setLoadingState, showError, clearMessages]
  · rintro p1 p2 rfl rfl
    simp [convert, hs, validateInputs, hne, hnan, hle, promiseAll2,
      setLoadingState, showResult, clearMessages]

/-- Witness for C4: idle controller, distinct currencies, amount 10, the
from fetch rejected with an HTTP error and the to fetch fulfilled: the
generic message is shown and no result is rendered. -/
theorem convert_all_or_fail_witness :
    (convert idleState "bitcoin" "ethereum" (JsNum.fin 10)
      (Except.error "HTTP error! status: 500") (Except.ok 4)).1.error =
      Msg.text genericFetchError ∧
    (convert idleState "bitcoin" "ethereum" (JsNum.fin 10)
      (Except.error "HTTP error! status: 500") (Except.ok 4)).1.result = Msg.empty := by
  have h := (convert_all_or_fail idleState "bitcoin" "ethereum" (JsNum.fin 10)
    (Except.error "HTTP error! status: 500") (Except.ok 4) rfl (by decide) rfl
    (by decide)).2.2.1 (Or.inl ⟨"HTTP error! status: 500", rfl⟩)
  exact ⟨h.1, h.2.2.1⟩

/-- C5: invoking convert while the controller is already Converting has
no effect at all: the state is returned unchanged (so nothing is
rendered and no flag moves) and no fetch is issued; the request is
dropped, not queued. -/
theorem convert_reentrant_drop (s : UIState) (fromCrypto toCrypto : String)
    (amount : JsNum) (fromFetch toFetch : Except String ℚ)
    (hs : s.isConverting = true) :
    convert s fromCrypto toCrypto amount fromFetch toFetch = (s, []) := by
  simp [convert, hs]

/-- Witness for C5: a converting controller drops the request whole. -/
theorem convert_reentrant_drop_witness :
    convert { idleState with isConverting := true } "bitcoin" "ethereum"
      (JsNum.fin 1) (Except.ok 1) (Except.ok 1) =
      ({ idleState with isConverting := true }, []) :=
  convert_reentrant_drop { idleState with isConverting := true } "bitcoin" "ethereum"
    (JsNum.fin 1) (Except.ok 1) (Except.ok 1) rfl

/-- C7: for a valid conversion with finite amount a > 0 and fetched
prices fp and tp with tp nonzero, the rendered result carries exactly
usdAmount = a * fp and convertedAmount = usdAmount / tp (exact rational
arithmetic, see the file comment). -/
theorem convert_arithmetic (s : UIState) (fromCrypto toCrypto : String) (a fp tp : ℚ)
    (hs : s.isConverting = false) (hne : fromCrypto ≠ toCrypto)
    (ha : 0 < a) (htp : tp ≠ 0) :
    (convert s fromCrypto toCrypto (JsNum.fin a)
      (Except.ok fp) (Except.ok tp)).1.result =
      Msg.conversionResult (JsNum.fin a) (JsNum.fin (a * fp)) (JsNum.fin (a * fp / tp))
        (getCryptoDisplayName fromCrypto) (getCryptoDisplayName toCrypto) := by
  have hle : (JsNum.fin a).le0 = false := by
    rw [JsNum.le0, decide_eq_false_iff_not]
    exact not_le.mpr ha
  simp [convert, hs, validateInputs, hne, JsNum.isNaN, hle, promiseAll2,
    JsNum.mulQ, JsNum.divQ, htp, setLoadingState, showResult, clearMessages]

/-- Witness for C7, the concrete instance named by the claim: amount 10
at fromPrice 2 and toPrice 4 renders usdAmount 20 and convertedAmount
5. -/
theorem convert_arithmetic_witness :
    (convert idleState "bitcoin" "ethereum" (JsNum.fin 10)
      (Except.ok 2) (Except.ok 4)).1.result =
      Msg.conversionResult (JsNum.fin 10) (JsNum.fin 20) (JsNum.fin 5) "BTC" "ETH" := by
  have h := convert_arithmetic idleState "bitcoin" "ethereum" 10 2 4 rfl
    (by decide) (by norm_num) (by norm_num)
  rw [h]
  norm_num
  exact ⟨rfl, rfl⟩

/-- C8: every run of convert that actually starts (the controller was
Idle) ends with the controller Idle again and the convert button
enabled, on the success path, the validation failure path and the fetch
failure path alike: the finally clause applies setLoadingState false on
each of them. -/
theorem convert_returns_idle (s : UIState) (fromCrypto toCrypto : String)
    (amount : JsNum) (fromFetch toFetch : Except String ℚ)
    (hs : s.isConverting = false) :
    (convert s fromCrypto toCrypto amount fromFetch toFetch).1.isConverting = false ∧
    (convert s fromCrypto toCrypto amount fromFetch toFetch).1.convertBtnDisabled = false := by
  rcases hv : validateInputs amount fromCrypto toCrypto with msg | v
  · simp [convert, hs, hv, setLoadingState, showError, clearMessages]
  · obtain ⟨a, fc, tc⟩ := v
    rcases hp : promiseAll2 fromFetch toFetch with e | p
    · simp [convert, hs, hv, hp, setLoadingState, showError, clearMessages]
    · obtain ⟨p1, p2⟩ := p
      simp [convert, hs, hv, hp, setLoadingState, showResult, clearMessages]

/-- Witness for C8: a failed fetch still ends with the controller Idle
and the button enabled. -/
theorem convert_returns_idle_witness :
    (convert idleState "bitcoin" "ethereum" (JsNum.fin 10)
      (Except.error "HTTP error! status: 500") (Except.ok 4)).1.isConverting = false ∧
    (convert idleState "bitcoin" "ethereum" (JsNum.fin 10)
      (Except.error "HTTP error! status: 500")
      (Except.ok 4)).1.convertBtnDisabled = false :=
  convert_returns_idle idleState "bitcoin" "ethereum" (JsNum.fin 10)
    (Except.error "HTTP error! status: 500") (Except.ok 4) rfl

end Covert
